import Mathlib

/-!
Verification development for the RAG (retrieval-augmented generation) pipeline of a
Next.js chat application.  The definitions below are a shallow embedding of the
TypeScript source:

* src/components/knowledge-base.tsx — the vector-store module in two revisions:
  a raw-SQL revision of searchSimilarChunks (lines 788-826) over documents with a
  nullable chatId column, and a later revision (lines 946-983) over a
  chat_documents join table; formatContextForLLM (lines 831-884).
* src/lib/agent.ts — the agent middlewares: the summarization configuration
  (trigger 12 / keep 4), the query-transform step, and the grounding
  system-prompt composition.
* src/unnamed/part_000 — the chat POST route handler.

Similarity scores are produced by the database's cosine-distance operator on
floating-point vectors; the ranking and visibility logic under verification is
purely comparison-based, so scores are embedded over an arbitrary linearly
ordered commutative ring K (instantiable with ℤ or ℚ).  The SQL ORDER BY in the
source specifies no tie-break, so the embedding models the database's result
order as a stable sort over the table's row order; this modelling choice is
noted where it matters.
-/

/-- One row of the documents table in the first (raw SQL) revision:
a nullable chatId column scopes the document to one chat; NULL means global. -/
structure DocumentRow where
  id : String
  filename : String
  chatId : Option String
deriving DecidableEq

/-- One row of the embeddings table: a chunk of a document.  The embedding
vector itself is abstracted into the distance function passed to the search
(the query vector is fixed for one search). -/
structure EmbeddingRow where
  id : String
  documentId : String
  chunkText : String
  chunkIndex : Nat
deriving DecidableEq

/-- One result row of searchSimilarChunks, which is also the input row shape of
formatContextForLLM. -/
structure ChunkRow (K : Type) where
  id : String
  chunkText : String
  chunkIndex : Nat
  documentId : String
  filename : String
  similarity : K
deriving DecidableEq

/-- One row of the chat_documents join table of the second revision
(after the migration that dropped documents.chatId). -/
structure ChatDocumentRow where
  chatId : String
  documentId : String
deriving DecidableEq

/-- A document row of the second revision: no chatId column. -/
structure DocumentRowV2 where
  id : String
  filename : String
deriving DecidableEq

/-- Insert an element into a list sorted by the given key, before the first
element of key not smaller.  Models one step of a stable ascending sort. -/
def orderedInsertBy {α K : Type} [LinearOrder K] (key : α → K) (a : α) : List α → List α
  | [] => [a]
  | b :: l => if key a ≤ key b then a :: b :: l else b :: orderedInsertBy key a l

/-- Stable ascending sort by a key.  Models both the database ORDER BY (with
ties left in row order — the SQL specifies no tie-break) and JavaScript's
stable Array.prototype.sort with the comparator (a, b) => a.k - b.k. -/
def insertionSortBy {α K : Type} [LinearOrder K] (key : α → K) : List α → List α
  | [] => []
  | a :: l => orderedInsertBy key a (insertionSortBy key l)

/-- The SQL visibility condition of the first revision, translated from
WHERE d."chatId" = chatId OR d."chatId" IS NULL (SQL equality with NULL is
never true, so a document scoped to another chat fails both disjuncts). -/
def visibleDoc (chatId : String) (d : DocumentRow) : Bool :=
  match d.chatId with
  | some c => c == chatId
  | none => true

/-- JOIN documents d ON e."documentId" = d.id, in table row order. -/
def joinRows (es : List EmbeddingRow) (ds : List DocumentRow) :
    List (EmbeddingRow × DocumentRow) :=
  es.flatMap (fun e => (ds.filter (fun d => d.id == e.documentId)).map (fun d => (e, d)))

/-- searchSimilarChunks, first revision (src/components/knowledge-base.tsx
lines 788-826): the raw SQL query joins embeddings with documents, keeps rows
whose document is scoped to this chat or global, orders by cosine distance to
the query embedding ascending, truncates to topK, and reports
similarity = 1 - distance.  dist abstracts the distance of each embedding row
to the fixed query vector. -/
def searchSimilarChunks {K : Type} [LinearOrderedCommRing K]
    (es : List EmbeddingRow) (ds : List DocumentRow)
    (dist : EmbeddingRow → K) (chatId : String) (topK : Nat) : List (ChunkRow K) :=
  ((insertionSortBy (fun p => dist p.1)
      ((joinRows es ds).filter (fun p => visibleDoc chatId p.2))).take topK).map
    (fun p =>
      { id := p.1.id, chunkText := p.1.chunkText, chunkIndex := p.1.chunkIndex,
        documentId := p.1.documentId, filename := p.2.filename,
        similarity := 1 - dist p.1 })

/-- searchSimilarChunks, second revision (src/components/knowledge-base.tsx
lines 946-983): first fetches the documents linked to this chat through the
chat_documents table, then runs a vector-store similarity search filtered to
those document ids, and maps each hit to the result shape with the filename
looked up in the fetched map ("不明" when absent) and similarity hardcoded
to 1 (the library search returns no score). -/
def searchSimilarChunksV2 {K : Type} [LinearOrderedCommRing K]
    (es : List EmbeddingRow) (ds : List DocumentRowV2) (cds : List ChatDocumentRow)
    (dist : EmbeddingRow → K) (chatId : String) (topK : Nat) : List (ChunkRow K) :=
  let docs := ds.filter (fun d => cds.any (fun cd => cd.chatId == chatId && cd.documentId == d.id))
  let docIds := docs.map (fun d => d.id)
  ((insertionSortBy dist (es.filter (fun e => docIds.any (fun i => i == e.documentId)))).take
      topK).map
    (fun e =>
      { id := e.id, chunkText := e.chunkText, chunkIndex := e.chunkIndex,
        documentId := e.documentId,
        filename := (match (docs.filter (fun d => d.id == e.documentId)).getLast? with
                     | some d => d.filename
                     | none => "不明"),
        similarity := 1 })

/-- One step of the JavaScript reduce in formatContextForLLM: append the chunk
to its filename's bucket, or start a new bucket at the end.  Plain-object
property order is insertion order for the non-numeric keys used here
(filenames), which is what the bucket list order models. -/
def groupUpd {α : Type} (key : α → String) (acc : List (String × List α)) (c : α) :
    List (String × List α) :=
  if acc.any (fun p => p.1 == key c) then
    acc.map (fun p => if p.1 == key c then (p.1, p.2 ++ [c]) else p)
  else acc ++ [(key c, [c])]

/-- Group a list by a string key, buckets in first-appearance order, each
bucket in input order.  With key = filename this is the chunksByDocument
reduce of formatContextForLLM. -/
def groupByKey {α : Type} (key : α → String) (l : List α) : List (String × List α) :=
  l.foldl (groupUpd key) []

/-- The chunksByDocument value built by formatContextForLLM: despite its name,
the source groups by the filename field, not by documentId. -/
def chunksByDocument {K : Type} (chunks : List (ChunkRow K)) : List (String × List (ChunkRow K)) :=
  groupByKey (fun c => c.filename) chunks

/-- The context lines emitted for one bucket: source header, blank line, then
each chunk text (sorted ascending by chunkIndex) followed by a blank line,
then a separator and a blank line. -/
def docSection {K : Type} (p : String × List (ChunkRow K)) : List String :=
  ["## From: " ++ p.1, ""] ++
    (insertionSortBy (fun c => c.chunkIndex) p.2).flatMap (fun c => [c.chunkText, ""]) ++
    ["---", ""]

/-- formatContextForLLM (src/components/knowledge-base.tsx lines 831-884,
English-string revision; the 988-1041 revision is identical up to the literal
strings): empty input yields the empty string, otherwise the intro line, the
per-bucket sections, and the outro line are joined with newlines. -/
def formatContextForLLM {K : Type} (chunks : List (ChunkRow K)) : String :=
  if chunks.length = 0 then ""
  else
    String.intercalate "\n"
      (["You have access to the following relevant information from the user's documents:", ""]
        ++ (chunksByDocument chunks).flatMap docSection
        ++ ["Please use this information to answer the user's question. If the information is not relevant, you can ignore it."])

/-- The sequence of chunk texts emitted by formatContextForLLM, in emission
order: buckets by filename in first-appearance order, each bucket sorted
ascending by chunkIndex. -/
def emittedChunkTexts {K : Type} (chunks : List (ChunkRow K)) : List String :=
  (chunksByDocument chunks).flatMap
    (fun p => (insertionSortBy (fun c => c.chunkIndex) p.2).map (fun c => c.chunkText))

/-- Claim-side reference definition, following the spec's words rather than the
source: group by the owning document (documentId) in first-appearance order,
each group's texts sorted ascending by chunkIndex. -/
def claimedChunkTextsByDocument {K : Type} (chunks : List (ChunkRow K)) : List String :=
  (groupByKey (fun c => c.documentId) chunks).flatMap
    (fun p => (insertionSortBy (fun c => c.chunkIndex) p.2).map (fun c => c.chunkText))

/-- Claim-side reference predicate, following the spec's words: whenever two
result rows carry an equal similarity score, the earlier one has a smaller
chunk ordinal, or an equal ordinal and a documentId not larger.  The nested
checks short-circuit, mirroring the claim's lexicographic tie-break. -/
def tieBreakOrdered {K : Type} [DecidableEq K] : List (ChunkRow K) → Bool
  | [] => true
  | a :: rest =>
      rest.all (fun b =>
        if a.similarity = b.similarity then
          decide (a.chunkIndex < b.chunkIndex) ||
            (decide (a.chunkIndex = b.chunkIndex) && decide (a.documentId ≤ b.documentId))
        else true) &&
      tieBreakOrdered rest

/-- A LangChain-style message as the agent middlewares see it: the type tag
distinguishes system, human and ai messages. -/
inductive LCMessage : Type
  | system (content : String)
  | human (content : String)
  | ai (content : String)
deriving DecidableEq

/-- The content string of a message (content.toString() in the source). -/
def msgContent : LCMessage → String
  | .system s => s
  | .human s => s
  | .ai s => s

/-- Whether a message is a human message (lastMessage.type === 'human'). -/
def isHumanMsg : LCMessage → Bool
  | .human _ => true
  | _ => false

/-- Whether the last message of the log is a human message; false on an empty
log (the source never reads the last message of an empty log because the
length guard short-circuits first). -/
def lastIsHuman (messages : List LCMessage) : Bool :=
  match messages.getLast? with
  | some m => isHumanMsg m
  | none => false

/-- The fixed rewriting instruction of queryTransformMiddleware
(src/lib/agent.ts line 39). -/
def queryTransformInstruction : String :=
  "会話履歴を踏まえて、最新のユーザーメッセージを検索に最適な独立した日本語のクエリに書き換えてください。簡潔かつ芯を捉えた表現にしてください。"

/-- The message list handed to the generation model by queryTransformMiddleware
when it fires: the fixed instruction followed by the whole current message
log (src/lib/agent.ts lines 36-44). -/
def queryTransformModelInput (messages : List LCMessage) : List LCMessage :=
  LCMessage.system queryTransformInstruction :: messages

/-- The beforeModel hook of queryTransformMiddleware (src/lib/agent.ts lines
26-56).  gen abstracts the generation capability (aiModel.invoke).  The first
component is the resulting message state: unchanged when the guard returns
early, otherwise the whole log is replaced (RemoveMessage REMOVE_ALL_MESSAGES
plus one HumanMessage) by the rewritten query.  The second component is the
list of generation-model invocations made, each recorded by its input. -/
def queryTransformRun (gen : List LCMessage → String) (messages : List LCMessage) :
    List LCMessage × List (List LCMessage) :=
  if messages.length ≤ 1 || !(lastIsHuman messages) then (messages, [])
  else
    ([LCMessage.human (gen (queryTransformModelInput messages))],
     [queryTransformModelInput messages])

/-- The standalone query read by dynamicSystemPromptMiddleware from the state:
the content of the last message (src/lib/agent.ts lines 81-82); empty on an
empty log. -/
def downstreamStandaloneQuery (messages : List LCMessage) : String :=
  match messages.getLast? with
  | some m => msgContent m
  | none => ""

/-- The guard on running the RAG search inside dynamicSystemPromptMiddleware
(src/lib/agent.ts line 88): a chatId must be present and truthy and the
standalone query must be nonempty after trimming; && short-circuits, so a
missing chatId skips the search outright. -/
def shouldRunRagSearch (chatId : Option String) (standaloneQuery : String) : Bool :=
  (match chatId with
   | some c => !(c == "")
   | none => false) && decide (0 < standaloneQuery.trim.length)

/-- The part of the grounding system prompt before the interpolated context
(src/lib/agent.ts lines 98-112, transcribed with its template whitespace). -/
def agentPromptHead : String :=
  "\n        【役割】\n          あなたは親切でプロフェッショナルなアシスタントです。提供された【コンテキスト】の情報に基づき、ユーザーを正確かつ温かい態度でサポートすることがあなたの使命です。\n\n        【行動指針】\n          1. 挨拶とトーン: ユーザーからの挨拶には、常に温かく歓迎的な態度で応じてください。挨拶の際、コンテキストの参照は不要です。\n            - 会話全体を通して、丁寧で前向きな（励みになるような）口調を維持してください。\n          2. 事実に基づく回答: 質問に対する回答は、提供された【コンテキスト】内の情報のみに基づいて作成してください。\n            - 自身の推測や外部知識、一般的な常識などは一切含めず、純粋に資料の内容のみを反映させてください。\n          3. 情報の透明性とプライバシー: クエリの変換、検索プロセス（RAG）、独立したクエリ生成などの内部処理については、回答に含めないでください。ユーザーには最終的な回答のみを提示してください。\n          4. 例外処理（情報が見つからない場合）: 【コンテキスト】の中に質問の答えが含まれていない場合は、無理に答えようとせず、以下のガイドラインに従って回答してください。\n            - 丁寧かつ具体的に回答不能であることを伝えます。\n            - 例：「提供された資料を確認しましたが、[トピック]に関する具体的な情報は見当たりませんでした。資料の範囲内で他にお手伝いできることがあれば、ぜひお知らせください」\n\n        【コンテキスト】\n          "

/-- The part of the grounding system prompt after the interpolated context
(src/lib/agent.ts line 114). -/
def agentPromptTail : String := "\n        "

/-- The placeholder interpolated when the grounding context is empty
(src/lib/agent.ts line 113). -/
def noSnippetsPlaceholder : String :=
  "このクエリに関連するドキュメントのスニペットは見つかりませんでした。"

/-- The grounding system prompt composed by dynamicSystemPromptMiddleware:
the context string is interpolated into the fixed template, with the
placeholder substituted when the context is empty (the JavaScript || operator
treats the empty string as falsy). -/
def composeSystemPrompt (context : String) : String :=
  agentPromptHead ++ (if context == "" then noSnippetsPlaceholder else context) ++ agentPromptTail

/-- A conversation-memory message, as the summarization policy sees it. -/
inductive MemMessage : Type
  | user (text : String)
  | assistant (text : String)
  | summary (text : String)
deriving DecidableEq

/-- The last n messages of a log, in order. -/
def lastN {α : Type} (n : Nat) (l : List α) : List α :=
  l.drop (l.length - n)

/-- The trigger threshold configured on summarizationMiddleware
(src/lib/agent.ts line 72). -/
def summarizationTrigger : Nat := 12

/-- The keep count configured on summarizationMiddleware
(src/lib/agent.ts line 73). -/
def summarizationKeep : Nat := 4

/-- Modelled from the spec: the implementation of summarizationMiddleware
lives in the external langchain package, not in this repository; src/lib/agent.ts
only configures it with trigger 12 and keep 4.  Spec section 4.1: if the log
length is at or below trigger, no-op; otherwise invoke the generation
capability on the messages being dropped, producing one Summary message, and
replace the log with that Summary followed by the last keep messages.
gen abstracts the generation capability. -/
def maybeSummarize (gen : List MemMessage → String) (trigger keep : Nat)
    (log : List MemMessage) : List MemMessage :=
  if log.length ≤ trigger then log
  else MemMessage.summary (gen (log.take (log.length - keep))) :: lastN keep log

/-- A UI message as received by the POST route; only its presence matters to
the validation under verification. -/
structure UIMessage where
  role : String
  content : String
deriving DecidableEq

/-- The observable outcome of the chat POST route: either an early rejection
with an HTTP status, or the pipeline running under a thread id. -/
inductive PostOutcome : Type
  | rejected (status : Nat)
  | pipelineRun (threadId : String)
deriving DecidableEq

/-- Whether the outcome is a rejection before pipeline entry. -/
def isRejection : PostOutcome → Bool
  | .rejected _ => true
  | .pipelineRun _ => false

/-- The chat POST route (src/unnamed/part_000 lines 7-42) combined with
runRagAgent (src/lib/agent.ts lines 123-138): an empty messages array is
rejected with status 400 before runRagAgent is invoked (so no memory append,
summarization, retrieval or generation happens); otherwise the agent runs
under thread id chatId, falling back to "default-thread" when the request id
is absent or empty (the JavaScript || operator treats both undefined and the
empty string as falsy). -/
def chatPOST (messages : List UIMessage) (chatId : Option String) : PostOutcome :=
  if messages.length = 0 then .rejected 400
  else
    .pipelineRun
      (match chatId with
       | some c => if c == "" then "default-thread" else c
       | none => "default-thread")

theorem mem_orderedInsertBy {α K : Type} [LinearOrder K] (key : α → K) (a x : α)
    (l : List α) : x ∈ orderedInsertBy key a l ↔ x = a ∨ x ∈ l := by
  induction l with
  | nil => simp [orderedInsertBy]
  | cons b l ih =>
      by_cases h : key a ≤ key b
      · simp [orderedInsertBy, h]
      · simp only [orderedInsertBy, if_neg h, List.mem_cons, ih]
        tauto

theorem mem_insertionSortBy {α K : Type} [LinearOrder K] (key : α → K) (x : α)
    (l : List α) : x ∈ insertionSortBy key l ↔ x ∈ l := by
  induction l with
  | nil => simp [insertionSortBy]
  | cons a l ih =>
      simp only [insertionSortBy, mem_orderedInsertBy, ih, List.mem_cons]

theorem pairwise_orderedInsertBy {α K : Type} [LinearOrder K] (key : α → K) (a : α)
    (l : List α) (h : l.Pairwise (fun x y => key x ≤ key y)) :
    (orderedInsertBy key a l).Pairwise (fun x y => key x ≤ key y) := by
  induction l with
  | nil => simp [orderedInsertBy]
  | cons b l ih =>
      rcases List.pairwise_cons.mp h with ⟨hb, hl⟩
      by_cases hab : key a ≤ key b
      · rw [orderedInsertBy, if_pos hab]
        refine List.pairwise_cons.mpr ⟨?_, h⟩
        intro y hy
        rcases List.mem_cons.mp hy with rfl | hy'
        · exact hab
        · exact le_trans hab (hb y hy')
      · rw [orderedInsertBy, if_neg hab]
        refine List.pairwise_cons.mpr ⟨?_, ih hl⟩
        intro y hy
        rcases (mem_orderedInsertBy key a y l).mp hy with rfl | hy'
        · exact le_of_lt (lt_of_not_le hab)
        · exact hb y hy'

theorem pairwise_insertionSortBy {α K : Type} [LinearOrder K] (key : α → K)
    (l : List α) : (insertionSortBy key l).Pairwise (fun x y => key x ≤ key y) := by
  induction l with
  | nil => simp [insertionSortBy]
  | cons a l ih => exact pairwise_orderedInsertBy key a _ ih

theorem filter_orderedInsertBy_ne {α K : Type} [LinearOrder K] (key : α → K) (a : α)
    (l : List α) (q : K) (hq : ¬ key a = q) :
    (orderedInsertBy key a l).filter (fun x => decide (key x = q)) =
      l.filter (fun x => decide (key x = q)) := by
  induction l with
  | nil => simp [orderedInsertBy, hq]
  | cons b l ih =>
      by_cases hab : key a ≤ key b
      · rw [orderedInsertBy, if_pos hab]
        simp [List.filter_cons, hq]
      · rw [orderedInsertBy, if_neg hab]
        simp only [List.filter_cons, ih]

theorem filter_orderedInsertBy_eq {α K : Type} [LinearOrder K] (key : α → K) (a : α)
    (l : List α) (h : l.Pairwise (fun x y => key x ≤ key y)) :
    (orderedInsertBy key a l).filter (fun x => decide (key x = key a)) =
      a :: l.filter (fun x => decide (key x = key a)) := by
  induction l with
  | nil => simp [orderedInsertBy]
  | cons b l ih =>
      rcases List.pairwise_cons.mp h with ⟨_, hl⟩
      by_cases hab : key a ≤ key b
      · rw [orderedInsertBy, if_pos hab]
        simp [List.filter_cons]
      · rw [orderedInsertBy, if_neg hab]
        have hba : key b ≠ key a := fun hEq => hab (le_of_eq hEq.symm)
        simp [List.filter_cons, hba, ih hl]

theorem filter_insertionSortBy {α K : Type} [LinearOrder K] (key : α → K)
    (l : List α) (q : K) :
    (insertionSortBy key l).filter (fun x => decide (key x = q)) =
      l.filter (fun x => decide (key x = q)) := by
  induction l with
  | nil => simp [insertionSortBy]
  | cons a l ih =>
      rw [insertionSortBy]
      by_cases h : key a = q
      · subst h
        rw [filter_orderedInsertBy_eq key a _ (pairwise_insertionSortBy key l), ih]
        simp [List.filter_cons]
      · rw [filter_orderedInsertBy_ne key a _ q h, ih]
        simp [List.filter_cons, h]

theorem any_map_key {α β : Type} (f : α → β) (p : β → Bool) (l : List α) :
    (l.map f).any p = l.any (fun x => p (f x)) := by
  induction l with
  | nil => rfl
  | cons a l ih => simp only [List.map_cons, List.any_cons, ih]

theorem any_congr_mem {α : Type} (p q : α → Bool) (l : List α)
    (h : ∀ x ∈ l, p x = q x) : l.any p = l.any q := by
  induction l with
  | nil => rfl
  | cons a l ih =>
      simp only [List.any_cons]
      rw [h a (List.mem_cons_self a l), ih (fun x hx => h x (List.mem_cons_of_mem a hx))]

/-- Proof device: the first element of each key-class of the list, in
first-appearance order.  Used only to characterise groupByKey. -/
def repUpd {α : Type} (key : α → String) (rs : List α) (c : α) : List α :=
  if rs.any (fun r => key r == key c) then rs else rs ++ [c]

/-- Proof device: fold of repUpd over the list. -/
def firstReps {α : Type} (key : α → String) (l : List α) : List α :=
  l.foldl (repUpd key) []

theorem groupByKey_append_singleton {α : Type} (key : α → String) (l : List α) (c : α) :
    groupByKey key (l ++ [c]) = groupUpd key (groupByKey key l) c := by
  simp [groupByKey, List.foldl_append]

theorem firstReps_append_singleton {α : Type} (key : α → String) (l : List α) (c : α) :
    firstReps key (l ++ [c]) = repUpd key (firstReps key l) c := by
  simp [firstReps, List.foldl_append]

theorem any_firstReps {α : Type} (key : α → String) (l : List α) (s : String) :
    (firstReps key l).any (fun r => key r == s) = l.any (fun x => key x == s) := by
  induction l using List.reverseRecOn generalizing s with
  | nil => rfl
  | append_singleton l c ih =>
      rw [firstReps_append_singleton, repUpd]
      by_cases h : (firstReps key l).any (fun r => key r == key c) = true
      · rw [if_pos h, List.any_append, ih s]
        by_cases hc : key c = s
        · have hl : l.any (fun x => key x == key c) = true := by
            rw [← ih (key c)]; exact h
          subst hc
          simp [hl]
        · simp [List.any_cons, hc]
      · rw [if_neg h, List.any_append, List.any_append, ih s]

theorem mem_of_mem_firstReps {α : Type} (key : α → String) (l : List α) (r : α)
    (h : r ∈ firstReps key l) : r ∈ l := by
  induction l using List.reverseRecOn with
  | nil => simp [firstReps] at h
  | append_singleton l c ih =>
      rw [firstReps_append_singleton, repUpd] at h
      by_cases hc : (firstReps key l).any (fun x => key x == key c) = true
      · rw [if_pos hc] at h
        exact List.mem_append_left _ (ih h)
      · rw [if_neg hc] at h
        rcases List.mem_append.mp h with h' | h'
        · exact List.mem_append_left _ (ih h')
        · exact List.mem_append_right _ h'

theorem groupByKey_eq {α : Type} (key : α → String) (l : List α) :
    groupByKey key l =
      (firstReps key l).map (fun r => (key r, l.filter (fun c => key c == key r))) := by
  induction l using List.reverseRecOn with
  | nil => rfl
  | append_singleton l c ih =>
      rw [groupByKey_append_singleton, firstReps_append_singleton, ih, groupUpd, repUpd]
      have hcond : ((List.map (fun r => (key r, l.filter (fun x => key x == key r)))
          (firstReps key l)).any (fun p => p.1 == key c)) =
          ((firstReps key l).any (fun r => key r == key c)) := by
        rw [any_map_key]
      rw [hcond]
      by_cases h : (firstReps key l).any (fun r => key r == key c) = true
      · rw [if_pos h, if_pos h, List.map_map]
        apply List.map_congr_left
        intro r _
        by_cases hr : key r = key c
        · have hb : (key r == key c) = true := beq_iff_eq.mpr hr
          have hb' : (key c == key r) = true := beq_iff_eq.mpr hr.symm
          simp only [Function.comp_apply, if_pos hb, List.filter_append, List.filter_cons,
            hb', List.filter_nil]
          simp
        · have hb : (key r == key c) = false := beq_eq_false_iff_ne.mpr hr
          have hb' : (key c == key r) = false := beq_eq_false_iff_ne.mpr (Ne.symm hr)
          simp only [Function.comp_apply, hb, List.filter_append, List.filter_cons, hb',
            List.filter_nil]
          simp
      · rw [if_neg h, if_neg h, List.map_append]
        have hnone : l.any (fun x => key x == key c) = false := by
          rw [← any_firstReps key l (key c)]
          exact Bool.not_eq_true _ ▸ (by simpa using h)
        congr 1
        · apply List.map_congr_left
          intro r hr
          have hne : (key r == key c) = false := by
            by_cases hb : key r = key c
            · refine absurd ?_ h
              refine List.any_eq_true.mpr ⟨r, hr, ?_⟩
              exact beq_iff_eq.mpr hb
            · exact beq_eq_false_iff_ne.mpr hb
          have hne' : (key c == key r) = false := by
            rcases beq_eq_false_iff_ne.mp hne with h'
            exact beq_eq_false_iff_ne.mpr (Ne.symm h')
          simp [List.filter_append, List.filter_cons, hne']
        · have hfil : l.filter (fun x => key x == key c) = [] := by
            rcases List.any_eq_false.mp hnone with h'
            exact List.filter_eq_nil_iff.mpr (fun a ha => by simpa using h' a ha)
          simp [List.filter_append, List.filter_cons, hfil]

theorem firstReps_congr {α : Type} (k1 k2 : α → String) (l : List α)
    (hkk : ∀ c ∈ l, ∀ c' ∈ l, (k1 c = k1 c' ↔ k2 c = k2 c')) :
    firstReps k1 l = firstReps k2 l := by
  induction l using List.reverseRecOn with
  | nil => rfl
  | append_singleton l c ih =>
      have hkl : ∀ a ∈ l, ∀ b ∈ l, (k1 a = k1 b ↔ k2 a = k2 b) := fun a ha b hb =>
        hkk a (List.mem_append_left _ ha) b (List.mem_append_left _ hb)
      have hrec : firstReps k1 l = firstReps k2 l := ih hkl
      rw [firstReps_append_singleton, firstReps_append_singleton, repUpd, repUpd, ← hrec]
      have hany : (firstReps k1 l).any (fun r => k1 r == k1 c) =
          (firstReps k1 l).any (fun r => k2 r == k2 c) := by
        apply any_congr_mem
        intro r hr
        have hrl : r ∈ l := mem_of_mem_firstReps k1 l r hr
        have hiff : k1 r = k1 c ↔ k2 r = k2 c :=
          hkk r (List.mem_append_left _ hrl) c (List.mem_append_right _ (by simp))
        by_cases h1 : k1 r = k1 c
        · rw [beq_iff_eq.mpr h1, beq_iff_eq.mpr (hiff.mp h1)]
        · rw [beq_eq_false_iff_ne.mpr h1, beq_eq_false_iff_ne.mpr (fun h2 => h1 (hiff.mpr h2))]
      rw [hany]

theorem groupByKey_snd_congr {α : Type} (k1 k2 : α → String) (l : List α)
    (hkk : ∀ c ∈ l, ∀ c' ∈ l, (k1 c = k1 c' ↔ k2 c = k2 c')) :
    (groupByKey k1 l).map Prod.snd = (groupByKey k2 l).map Prod.snd := by
  rw [groupByKey_eq, groupByKey_eq, List.map_map, List.map_map,
    firstReps_congr k1 k2 l hkk]
  apply List.map_congr_left
  intro r hr
  have hrl : r ∈ l := mem_of_mem_firstReps k2 l r hr
  simp only [Function.comp_apply]
  apply List.filter_congr
  intro x hx
  have hiff : k1 x = k1 r ↔ k2 x = k2 r := hkk x hx r hrl
  by_cases h1 : k1 x = k1 r
  · rw [beq_iff_eq.mpr h1, beq_iff_eq.mpr (hiff.mp h1)]
  · rw [beq_eq_false_iff_ne.mpr h1, beq_eq_false_iff_ne.mpr (fun h2 => h1 (hiff.mpr h2))]

theorem flatMap_snd_congr {β γ : Type} (g : List β → List γ)
    (l1 l2 : List (String × List β)) (h : l1.map Prod.snd = l2.map Prod.snd) :
    l1.flatMap (fun p => g p.2) = l2.flatMap (fun p => g p.2) := by
  have e1 : (l1.map Prod.snd).flatMap g = l1.flatMap (fun p => g p.2) := by
    simp [List.flatMap_map]
  have e2 : (l2.map Prod.snd).flatMap g = l2.flatMap (fun p => g p.2) := by
    simp [List.flatMap_map]
  rw [← e1, ← e2, h]

theorem visibleDoc_iff (scope : String) (d : DocumentRow) :
    visibleDoc scope d = true ↔ d.chatId = some scope ∨ d.chatId = none := by
  cases h : d.chatId with
  | none => simp [visibleDoc, h]
  | some c => simp [visibleDoc, h]

/-- C1: for every scope and query, the first-revision searchSimilarChunks only
returns chunks joined to a document that is scoped to that very chat or
global, so a document scoped to a different thread is never returned; every
global document's chunks pass the visibility filter for every scope (only
ranking and the topK limit can exclude them); and the second-revision
searchSimilarChunks only returns chunks of documents linked to the queried
chat through the chat_documents table. -/
theorem C1_retrieval_scope_isolation {K : Type} [LinearOrderedCommRing K] :
    (∀ (es : List EmbeddingRow) (ds : List DocumentRow) (dist : EmbeddingRow → K)
        (scope : String) (topK : Nat) (r : ChunkRow K),
        r ∈ searchSimilarChunks es ds dist scope topK →
        ∃ d ∈ ds, d.id = r.documentId ∧ d.filename = r.filename ∧
          (d.chatId = some scope ∨ d.chatId = none))
    ∧ (∀ (es : List EmbeddingRow) (ds : List DocumentRow) (scope : String)
        (e : EmbeddingRow) (d : DocumentRow), e ∈ es → d ∈ ds →
        d.id = e.documentId → d.chatId = none →
        (e, d) ∈ (joinRows es ds).filter (fun p => visibleDoc scope p.2))
    ∧ (∀ (es : List EmbeddingRow) (ds : List DocumentRowV2)
        (cds : List ChatDocumentRow) (dist : EmbeddingRow → K)
        (scope : String) (topK : Nat) (r : ChunkRow K),
        r ∈ searchSimilarChunksV2 es ds cds dist scope topK →
        ∃ cd ∈ cds, cd.chatId = scope ∧ cd.documentId = r.documentId) := by
  refine ⟨?_, ?_, ?_⟩
  · intro es ds dist scope topK r hr
    simp only [searchSimilarChunks] at hr
    rcases List.mem_map.mp hr with ⟨p, hp, rfl⟩
    have hp2 := (mem_insertionSortBy (fun q => dist q.1) p _).mp (List.mem_of_mem_take hp)
    rcases List.mem_filter.mp hp2 with ⟨hpj, hvis⟩
    simp only [joinRows] at hpj
    rcases List.mem_flatMap.mp hpj with ⟨e, he, hpe⟩
    rcases List.mem_map.mp hpe with ⟨d, hdf, hpd⟩
    rcases List.mem_filter.mp hdf with ⟨hd, hdid⟩
    cases hpd
    exact ⟨d, hd, beq_iff_eq.mp hdid, rfl, (visibleDoc_iff scope d).mp hvis⟩
  · intro es ds scope e d he hd hid hnone
    refine List.mem_filter.mpr ⟨?_, ?_⟩
    · simp only [joinRows]
      refine List.mem_flatMap.mpr ⟨e, he, ?_⟩
      exact List.mem_map.mpr ⟨d, List.mem_filter.mpr ⟨hd, beq_iff_eq.mpr hid⟩, rfl⟩
    · simp [visibleDoc, hnone]
  · intro es ds cds dist scope topK r hr
    simp only [searchSimilarChunksV2] at hr
    rcases List.mem_map.mp hr with ⟨e, he, rfl⟩
    have he2 := (mem_insertionSortBy dist e _).mp (List.mem_of_mem_take he)
    rcases List.mem_filter.mp he2 with ⟨_, hany⟩
    rcases List.any_eq_true.mp hany with ⟨i, hi, hieq⟩
    rcases List.mem_map.mp hi with ⟨d, hdocs, rfl⟩
    rcases List.mem_filter.mp hdocs with ⟨_, hcd⟩
    rcases List.any_eq_true.mp hcd with ⟨cd, hcds, hbeq⟩
    rcases (Bool.and_eq_true _ _).mp hbeq with ⟨hb1, hb2⟩
    refine ⟨cd, hcds, beq_iff_eq.mp hb1, ?_⟩
    rw [beq_iff_eq.mp hb2]
    exact beq_iff_eq.mp hieq

/-- Witness for C1 at a concrete store: one global document whose chunk is
returned for scope "S" in revision one, the same pair passing the visibility
filter, and one chat-linked document returned by revision two. -/
theorem C1_retrieval_scope_isolation_witness :
    (∃ d ∈ [(⟨"D", "f.txt", none⟩ : DocumentRow)], d.id = "D" ∧ d.filename = "f.txt" ∧
        (d.chatId = some "S" ∨ d.chatId = none))
    ∧ ((⟨"e0", "D", "hello", 0⟩, (⟨"D", "f.txt", none⟩ : DocumentRow)) ∈
        (joinRows [⟨"e0", "D", "hello", 0⟩] [⟨"D", "f.txt", none⟩]).filter
          (fun p => visibleDoc "S" p.2))
    ∧ (∃ cd ∈ [(⟨"S", "D2"⟩ : ChatDocumentRow)], cd.chatId = "S" ∧ cd.documentId = "D2") := by
  refine ⟨?_, ?_, ?_⟩
  · exact C1_retrieval_scope_isolation.1 [⟨"e0", "D", "hello", 0⟩] [⟨"D", "f.txt", none⟩]
      (fun _ => (0 : Int)) "S" 5 ⟨"e0", "hello", 0, "D", "f.txt", 1⟩ (by decide)
  · exact (@C1_retrieval_scope_isolation Int _).2.1 [⟨"e0", "D", "hello", 0⟩]
      [⟨"D", "f.txt", none⟩] "S" ⟨"e0", "D", "hello", 0⟩ ⟨"D", "f.txt", none⟩
      (by decide) (by decide) rfl rfl
  · exact C1_retrieval_scope_isolation.2.2 [⟨"e2", "D2", "text2", 0⟩] [⟨"D2", "g.txt"⟩]
      [⟨"S", "D2"⟩] (fun _ => (0 : Int)) "S" 5 ⟨"e2", "text2", 0, "D2", "g.txt", 1⟩
      (by decide)

/-- C4 as stated fails: the first-revision SQL orders only by distance and
specifies no tie-break, so two equal-score results whose store order has the
larger ordinal first are returned with the larger ordinal first.  Concretely,
chunks with ordinals 1 and 0 of one global document at equal distance come
back as ordinal 1 before ordinal 0, violating the claimed ascending-ordinal
tie-break. -/
theorem C4_tie_break_counterexample :
    ¬ (tieBreakOrdered (searchSimilarChunks
        [⟨"e1", "D", "t1", 1⟩, ⟨"e0", "D", "t0", 0⟩] [⟨"D", "f.txt", none⟩]
        (fun _ => (0 : Int)) "S" 5) = true) := by
  decide

/-- C4 amended: the ranking returned by the first-revision searchSimilarChunks
is sorted by non-increasing similarity and truncated to topK, and equal-score
rows keep their relative order from the joined store (modelled as the table's
row order) — no chunk-ordinal or documentId tie-break is applied. -/
theorem C4_ranking_amended {K : Type} [LinearOrderedCommRing K]
    (es : List EmbeddingRow) (ds : List DocumentRow) (dist : EmbeddingRow → K)
    (scope : String) (topK : Nat) :
    ((searchSimilarChunks es ds dist scope topK).Pairwise
        (fun a b => b.similarity ≤ a.similarity))
    ∧ (searchSimilarChunks es ds dist scope topK).length ≤ topK
    ∧ (∀ q : K,
        ((insertionSortBy (fun p => dist p.1)
            ((joinRows es ds).filter (fun p => visibleDoc scope p.2))).filter
          (fun (p : EmbeddingRow × DocumentRow) => decide (dist p.1 = q))) =
        (((joinRows es ds).filter (fun p => visibleDoc scope p.2)).filter
          (fun (p : EmbeddingRow × DocumentRow) => decide (dist p.1 = q)))) := by
  refine ⟨?_, ?_, ?_⟩
  · simp only [searchSimilarChunks]
    rw [List.pairwise_map]
    have hsorted := pairwise_insertionSortBy
      (fun (p : EmbeddingRow × DocumentRow) => dist p.1)
      ((joinRows es ds).filter (fun p => visibleDoc scope p.2))
    have htake := hsorted.sublist (List.take_sublist topK _)
    exact htake.imp (fun h => sub_le_sub_left h 1)
  · simp only [searchSimilarChunks, List.length_map]
    exact le_trans (List.length_take_le topK _) (le_refl _)
  · intro q
    exact filter_insertionSortBy (fun (p : EmbeddingRow × DocumentRow) => dist p.1) _ q

/-- C2 as stated fails: formatContextForLLM buckets by the filename field, not
by the owning documentId, so two chunks of distinct documents "A" and "B"
sharing the filename "f" are merged into a single bucket and re-sorted by
ordinal across documents, yielding the text order tB0, tA5 where grouping by
owning document would yield tA5, tB0. -/
theorem C2_grouping_counterexample :
    (emittedChunkTexts
        [⟨"x5", "tA5", 5, "A", "f", (1 : Int)⟩, ⟨"y0", "tB0", 0, "B", "f", (1 : Int)⟩] =
      ["tB0", "tA5"])
    ∧ (claimedChunkTextsByDocument
        [⟨"x5", "tA5", 5, "A", "f", (1 : Int)⟩, ⟨"y0", "tB0", 0, "B", "f", (1 : Int)⟩] =
      ["tA5", "tB0"])
    ∧ emittedChunkTexts
        [⟨"x5", "tA5", 5, "A", "f", (1 : Int)⟩, ⟨"y0", "tB0", 0, "B", "f", (1 : Int)⟩] ≠
      claimedChunkTextsByDocument
        [⟨"x5", "tA5", 5, "A", "f", (1 : Int)⟩, ⟨"y0", "tB0", 0, "B", "f", (1 : Int)⟩] := by
  refine ⟨by decide, by decide, by decide⟩

/-- C2 amended: provided each filename in the input belongs to exactly one
document (the implementation's bucket key is the filename), formatContextForLLM
emits chunk texts grouped by owning document in the order each document first
appears in the ranked input, with each document's texts sorted by ascending
chunk ordinal; in particular the ranked input A#2(0.9), B#0(0.8), A#0(0.7)
assembles in the text order A#0, A#2, B#0. -/
theorem C2_assembly_amended :
    (∀ (K : Type) (chunks : List (ChunkRow K)),
        (∀ c ∈ chunks, ∀ c' ∈ chunks,
          (c.filename = c'.filename ↔ c.documentId = c'.documentId)) →
        emittedChunkTexts chunks = claimedChunkTextsByDocument chunks)
    ∧ emittedChunkTexts
        [⟨"a2", "A2text", 2, "A", "a.txt", (0.9 : ℚ)⟩,
         ⟨"b0", "B0text", 0, "B", "b.txt", (0.8 : ℚ)⟩,
         ⟨"a0", "A0text", 0, "A", "a.txt", (0.7 : ℚ)⟩] =
      ["A0text", "A2text", "B0text"] := by
  constructor
  · intro K chunks hkk
    unfold emittedChunkTexts claimedChunkTextsByDocument chunksByDocument
    exact flatMap_snd_congr
      (fun l => (insertionSortBy (fun c => c.chunkIndex) l).map (fun c => c.chunkText)) _ _
      (groupByKey_snd_congr (fun c => c.filename) (fun c => c.documentId) chunks hkk)
  · decide

/-- Witness for the amended C2 at the spec's ranked-input scenario, whose
filenames determine its documents. -/
theorem C2_assembly_amended_witness :
    emittedChunkTexts
        [⟨"a2", "A2text", 2, "A", "a.txt", (0.9 : ℚ)⟩,
         ⟨"b0", "B0text", 0, "B", "b.txt", (0.8 : ℚ)⟩,
         ⟨"a0", "A0text", 0, "A", "a.txt", (0.7 : ℚ)⟩] =
      claimedChunkTextsByDocument
        [⟨"a2", "A2text", 2, "A", "a.txt", (0.9 : ℚ)⟩,
         ⟨"b0", "B0text", 0, "B", "b.txt", (0.8 : ℚ)⟩,
         ⟨"a0", "A0text", 0, "A", "a.txt", (0.7 : ℚ)⟩] :=
  C2_assembly_amended.1 ℚ
    [⟨"a2", "A2text", 2, "A", "a.txt", (0.9 : ℚ)⟩,
     ⟨"b0", "B0text", 0, "B", "b.txt", (0.8 : ℚ)⟩,
     ⟨"a0", "A0text", 0, "A", "a.txt", (0.7 : ℚ)⟩] (by decide)

set_option maxRecDepth 8000 in
/-- C10: on an input whose chunks come from two distinct documents "A" and "B"
that share the filename "shared.txt", formatContextForLLM produces a single
bucket (one source header) instead of two per-document groups, and the chunk
texts of the two documents are interleaved by ascending ordinal. -/
theorem C10_filename_grouping :
    ((chunksByDocument
        [⟨"x2", "tA2", 2, "A", "shared.txt", (1 : Int)⟩,
         ⟨"y1", "tB1", 1, "B", "shared.txt", (1 : Int)⟩,
         ⟨"x0", "tA0", 0, "A", "shared.txt", (1 : Int)⟩]).length = 1)
    ∧ ((groupByKey (fun c : ChunkRow Int => c.documentId)
        [⟨"x2", "tA2", 2, "A", "shared.txt", (1 : Int)⟩,
         ⟨"y1", "tB1", 1, "B", "shared.txt", (1 : Int)⟩,
         ⟨"x0", "tA0", 0, "A", "shared.txt", (1 : Int)⟩]).length = 2)
    ∧ (emittedChunkTexts
        [⟨"x2", "tA2", 2, "A", "shared.txt", (1 : Int)⟩,
         ⟨"y1", "tB1", 1, "B", "shared.txt", (1 : Int)⟩,
         ⟨"x0", "tA0", 0, "A", "shared.txt", (1 : Int)⟩] = ["tA0", "tB1", "tA2"])
    ∧ (formatContextForLLM
        [⟨"x2", "tA2", 2, "A", "shared.txt", (1 : Int)⟩,
         ⟨"y1", "tB1", 1, "B", "shared.txt", (1 : Int)⟩,
         ⟨"x0", "tA0", 0, "A", "shared.txt", (1 : Int)⟩] =
      "You have access to the following relevant information from the user's documents:\n\n## From: shared.txt\n\ntA0\n\ntB1\n\ntA2\n\n---\n\nPlease use this information to answer the user's question. If the information is not relevant, you can ignore it.") := by
  refine ⟨by decide, by decide, by decide, by decide⟩

/-- C3: empty retrieval output assembles to the empty string (not an error),
topK = 0 retrieves nothing, and composing the grounding prompt on empty
context substitutes exactly the fixed no-snippets placeholder, while nonempty
context is interpolated verbatim. -/
theorem C3_empty_grounding :
    (∀ (K : Type), formatContextForLLM ([] : List (ChunkRow K)) = "")
    ∧ (∀ (K : Type) [LinearOrderedCommRing K] (es : List EmbeddingRow)
        (ds : List DocumentRow) (dist : EmbeddingRow → K) (scope : String),
        searchSimilarChunks es ds dist scope 0 = [])
    ∧ (composeSystemPrompt "" =
        agentPromptHead ++ "このクエリに関連するドキュメントのスニペットは見つかりませんでした。"
          ++ agentPromptTail)
    ∧ (∀ context : String, context ≠ "" →
        composeSystemPrompt context = agentPromptHead ++ context ++ agentPromptTail) := by
  refine ⟨fun _ => rfl, ?_, rfl, ?_⟩
  · intro K _ es ds dist scope
    simp [searchSimilarChunks]
  · intro context hc
    rw [composeSystemPrompt, if_neg]
    simp [hc]

/-- Witness for C3 on a concrete nonempty context string. -/
theorem C3_empty_grounding_witness :
    composeSystemPrompt "資料の本文" = agentPromptHead ++ "資料の本文" ++ agentPromptTail :=
  C3_empty_grounding.2.2.2 "資料の本文" (by decide)

/-- C5: with the configured trigger 12 and keep 4, the summarization step is a
no-op on every log of length at most 12, and on a log of exactly 13 messages
it performs one summarization, replacing the log by one Summary message (the
generation capability applied to the 9 dropped messages) followed by the last
4 messages verbatim in causal order. -/
theorem C5_summarization_policy :
    (∀ (gen : List MemMessage → String) (log : List MemMessage), log.length ≤ 12 →
        maybeSummarize gen summarizationTrigger summarizationKeep log = log)
    ∧ (∀ (gen : List MemMessage → String) (log : List MemMessage), log.length = 13 →
        maybeSummarize gen summarizationTrigger summarizationKeep log =
          MemMessage.summary (gen (log.take 9)) :: log.drop 9) := by
  constructor
  · intro gen log h
    rw [maybeSummarize, if_pos (show log.length ≤ summarizationTrigger from h)]
  · intro gen log h
    have h2 : ¬ log.length ≤ summarizationTrigger := by
      rw [h, summarizationTrigger]; omega
    rw [maybeSummarize, if_neg h2, lastN, h]
    rfl

/-- Witness for C5: a 13-message log collapses to one Summary plus the last 4
messages, and an 11-message log is untouched. -/
theorem C5_summarization_policy_witness :
    (maybeSummarize (fun _ => "SUM") summarizationTrigger summarizationKeep
        [MemMessage.user "m1", MemMessage.assistant "m2", MemMessage.user "m3",
         MemMessage.assistant "m4", MemMessage.user "m5", MemMessage.assistant "m6",
         MemMessage.user "m7", MemMessage.assistant "m8", MemMessage.user "m9",
         MemMessage.assistant "m10", MemMessage.user "m11", MemMessage.assistant "m12",
         MemMessage.user "m13"] =
      [MemMessage.summary "SUM", MemMessage.assistant "m10", MemMessage.user "m11",
       MemMessage.assistant "m12", MemMessage.user "m13"])
    ∧ (maybeSummarize (fun _ => "SUM") summarizationTrigger summarizationKeep
        [MemMessage.user "m1", MemMessage.assistant "m2", MemMessage.user "m3",
         MemMessage.assistant "m4", MemMessage.user "m5", MemMessage.assistant "m6",
         MemMessage.user "m7", MemMessage.assistant "m8", MemMessage.user "m9",
         MemMessage.assistant "m10", MemMessage.user "m11"] =
      [MemMessage.user "m1", MemMessage.assistant "m2", MemMessage.user "m3",
       MemMessage.assistant "m4", MemMessage.user "m5", MemMessage.assistant "m6",
       MemMessage.user "m7", MemMessage.assistant "m8", MemMessage.user "m9",
       MemMessage.assistant "m10", MemMessage.user "m11"]) := by
  constructor
  · exact (C5_summarization_policy.2 (fun _ => "SUM")
      [MemMessage.user "m1", MemMessage.assistant "m2", MemMessage.user "m3",
       MemMessage.assistant "m4", MemMessage.user "m5", MemMessage.assistant "m6",
       MemMessage.user "m7", MemMessage.assistant "m8", MemMessage.user "m9",
       MemMessage.assistant "m10", MemMessage.user "m11", MemMessage.assistant "m12",
       MemMessage.user "m13"] (by decide)).trans (by decide)
  · exact C5_summarization_policy.1 (fun _ => "SUM")
      [MemMessage.user "m1", MemMessage.assistant "m2", MemMessage.user "m3",
       MemMessage.assistant "m4", MemMessage.user "m5", MemMessage.assistant "m6",
       MemMessage.user "m7", MemMessage.assistant "m8", MemMessage.user "m9",
       MemMessage.assistant "m10", MemMessage.user "m11"] (by decide)

/-- C6: with trigger 12 and keep 4, the summarization step is idempotent —
running it again on its own output (no intervening append) changes nothing,
because a summarized log has length 5, below the trigger. -/
theorem C6_maybeSummarize_idempotent (gen : List MemMessage → String)
    (log : List MemMessage) :
    maybeSummarize gen summarizationTrigger summarizationKeep
        (maybeSummarize gen summarizationTrigger summarizationKeep log) =
      maybeSummarize gen summarizationTrigger summarizationKeep log := by
  by_cases h : log.length ≤ summarizationTrigger
  · have h1 : maybeSummarize gen summarizationTrigger summarizationKeep log = log := by
      rw [maybeSummarize, if_pos h]
    rw [h1, h1]
  · have h1 : maybeSummarize gen summarizationTrigger summarizationKeep log =
        MemMessage.summary (gen (log.take (log.length - summarizationKeep))) ::
          lastN summarizationKeep log := by
      rw [maybeSummarize, if_neg h]
    rw [h1]
    have hlen : (MemMessage.summary (gen (log.take (log.length - summarizationKeep))) ::
        lastN summarizationKeep log).length ≤ summarizationTrigger := by
      simp only [List.length_cons, lastN, List.length_drop, summarizationTrigger,
        summarizationKeep]
      omega
    rw [maybeSummarize, if_pos hlen]

/-- C7: when the log has at most one message, or its last message is not a
human message, the query-transform step leaves the message state unchanged and
makes no generation-model call. -/
theorem C7_rewrite_passthrough (gen : List LCMessage → String)
    (messages : List LCMessage)
    (h : messages.length ≤ 1 ∨ lastIsHuman messages = false) :
    queryTransformRun gen messages = (messages, []) := by
  rw [queryTransformRun, if_pos]
  rcases h with h | h
  · simp [h]
  · simp [h]

/-- Witness for C7: the first message of a new thread, "Hello", passes through
unchanged with no model invocation. -/
theorem C7_rewrite_passthrough_witness :
    queryTransformRun (fun _ => "書き換え") [LCMessage.human "Hello"] =
      ([LCMessage.human "Hello"], []) :=
  C7_rewrite_passthrough (fun _ => "書き換え") [LCMessage.human "Hello"]
    (Or.inl (by decide))

/-- C8 as stated fails: on a five-message log ending in a human message, the
query-transform step hands the generation model the fixed instruction followed
by the whole log, not by a three-message window. -/
theorem C8_window_counterexample :
    ((queryTransformRun (fun _ => "q")
        [LCMessage.human "m1", LCMessage.ai "m2", LCMessage.human "m3",
         LCMessage.ai "m4", LCMessage.human "m5"]).2 =
      [queryTransformModelInput
        [LCMessage.human "m1", LCMessage.ai "m2", LCMessage.human "m3",
         LCMessage.ai "m4", LCMessage.human "m5"]])
    ∧ (queryTransformRun (fun _ => "q")
        [LCMessage.human "m1", LCMessage.ai "m2", LCMessage.human "m3",
         LCMessage.ai "m4", LCMessage.human "m5"]).2 ≠
      [LCMessage.system queryTransformInstruction ::
        lastN 3 [LCMessage.human "m1", LCMessage.ai "m2", LCMessage.human "m3",
          LCMessage.ai "m4", LCMessage.human "m5"]] := by
  exact ⟨by decide, by decide⟩

/-- C8 amended: when the query-transform step fires (more than one message and
a human last message), it invokes the generation capability exactly once on
the fixed rewriting instruction followed by the entire current message log,
replaces the whole message state by one human message carrying the returned
text, and that text is exactly the standalone query the downstream retrieval
stage reads from the state. -/
theorem C8_rewrite_amended (gen : List LCMessage → String)
    (messages : List LCMessage) (h1 : 1 < messages.length)
    (h2 : lastIsHuman messages = true) :
    queryTransformRun gen messages =
      ([LCMessage.human (gen (queryTransformModelInput messages))],
        [queryTransformModelInput messages])
    ∧ downstreamStandaloneQuery (queryTransformRun gen messages).1 =
      gen (queryTransformModelInput messages) := by
  have hcond : (decide (messages.length ≤ 1) || !lastIsHuman messages) = false := by
    simp [h2]
    omega
  have hrun : queryTransformRun gen messages =
      ([LCMessage.human (gen (queryTransformModelInput messages))],
        [queryTransformModelInput messages]) := by
    rw [queryTransformRun, if_neg (by simp [hcond])]
  refine ⟨hrun, ?_⟩
  rw [hrun]
  rfl

/-- Witness for the amended C8 on a two-message log. -/
theorem C8_rewrite_amended_witness :
    queryTransformRun (fun _ => "独立クエリ") [LCMessage.ai "応答", LCMessage.human "質問"] =
      ([LCMessage.human "独立クエリ"],
        [queryTransformModelInput [LCMessage.ai "応答", LCMessage.human "質問"]])
    ∧ downstreamStandaloneQuery (queryTransformRun (fun _ => "独立クエリ")
        [LCMessage.ai "応答", LCMessage.human "質問"]).1 = "独立クエリ" :=
  C8_rewrite_amended (fun _ => "独立クエリ") [LCMessage.ai "応答", LCMessage.human "質問"]
    (by decide) (by decide)

/-- C9 as stated fails: a request with a nonempty turn but no thread id is not
rejected — the route runs the pipeline under the fallback thread id
"default-thread". -/
theorem C9_missing_thread_counterexample :
    (chatPOST [⟨"user", "Hello"⟩] none = PostOutcome.pipelineRun "default-thread")
    ∧ isRejection (chatPOST [⟨"user", "Hello"⟩] none) = false := by
  exact ⟨rfl, rfl⟩

/-- C9 amended: an empty turn is rejected with status 400 before runRagAgent
is reached, so no pipeline stage runs; a missing thread id is not rejected —
the pipeline runs under "default-thread", and the retrieval stage is skipped
for every query because the chat-id guard fails. -/
theorem C9_validation_amended :
    (∀ chatId : Option String, chatPOST [] chatId = PostOutcome.rejected 400)
    ∧ (∀ msgs : List UIMessage, msgs ≠ [] →
        chatPOST msgs none = PostOutcome.pipelineRun "default-thread")
    ∧ (∀ q : String, shouldRunRagSearch none q = false) := by
  refine ⟨fun _ => rfl, ?_, fun _ => rfl⟩
  intro msgs h
  rw [chatPOST, if_neg (by simpa using h)]

/-- Witness for the amended C9 on a one-message request without a thread id. -/
theorem C9_validation_amended_witness :
    chatPOST [(⟨"user", "こんにちは"⟩ : UIMessage)] none =
      PostOutcome.pipelineRun "default-thread" :=
  C9_validation_amended.2.1 [⟨"user", "こんにちは"⟩] (by decide)
